import Mathlib

/-!
# muduo/base/Thread.cc

A shallow embedding of the thread handle (`muduo::Thread`), of the entry
trampoline (`muduo::detail::ThreadData::runInThread`), and of the per-thread
cached identity (`muduo::CurrentThread`), followed by the properties of the
start-up rendezvous, the failure policy, the lifecycle checks, the default
names and the fork hook.

Conventions of the embedding.

* `int`, `pid_t` and `int32_t` are `Int` values reduced with `toInt32`.
* `assert` is an active check: a failed assertion terminates the process.
* What the operating system answers (the result of `pthread_create`, of
  `pthread_join`, of the `gettid` system call, of `getpid`) is an argument of
  the function that asks for it.
* Calls of native primitives and writes to the diagnostic stream are recorded
  as `Event`s, in program order.
-/

namespace muduo

/-! ## Machine integers and C library formatting -/

/-- The value of an integer stored in a signed 32-bit variable (`int`,
`int32_t`, `pid_t`), two's complement. -/
def toInt32 (x : Int) : Int := (x + 2147483648) % 4294967296 - 2147483648

/-- The text `snprintf(buf, size, ...)` leaves in `buf` when the formatted
text is `formatted`: at most `size - 1` characters of it. -/
def snprintf (size : Nat) (formatted : String) : String :=
  String.mk (formatted.data.take (size - 1))

/-- The text a callee reads from `s.c_str()` through a `const char*` (the
argument of `%s`, of `prctl`, the value of `t_threadName`): the characters of
`s` before its first NUL. (A `std::string` holds bytes; no character other
than NUL has a zero byte in its encoding.) -/
def c_str (s : String) : String :=
  String.mk (s.data.takeWhile (fun c => c != Char.ofNat 0))

/-- The conversion `%d` of an `int`. -/
def fmt_d (n : Int) : String := toString n

/-- The conversion `%5d` of an `int`: right-justified in a field of width 5. -/
def fmt_5d (n : Int) : String :=
  String.mk (List.replicate (5 - (fmt_d n).length) ' ') ++ fmt_d n

/-! ## Data model -/

/-- How one call of the user closure (`ThreadFunc`, a `std::function<void ()>`)
ends: it returns, or it raises a `muduo::Exception` (message and stack trace),
a `std::exception` that is not a `muduo::Exception` (message only), or
anything else. `what` and `stackTrace` are the strings behind the pointers
that `ex.what()` and `ex.stackTrace()` return. -/
inductive ThreadFunc where
  | returns
  | throwsException (what stackTrace : String)
  | throwsStdException (what : String)
  | throwsOther
  deriving DecidableEq, Repr

/-- Modelled from the spec: `CountDownLatch` (muduo/base/CountDownLatch.h is
not among the sources), "a counter initialized to one waiter-unblocking unit"
with a decrement-by-one and "a blocking wait that returns once the counter
reaches zero". -/
structure CountDownLatch where
  count_ : Int
  deriving DecidableEq, Repr

/-- Modelled from the spec: `CountDownLatch::countDown`, the "single
decrement-and-notify". -/
def CountDownLatch.countDown (l : CountDownLatch) : CountDownLatch :=
  { l with count_ := l.count_ - 1 }

/-- Modelled from the spec: whether `CountDownLatch::wait` returns, namely
"once the counter reaches zero"; otherwise the caller stays blocked. -/
def CountDownLatch.waitReturns (l : CountDownLatch) : Bool :=
  l.count_ == 0

/-- What the code does to the outside: native thread primitives, the heap
object holding the start-up payload, the latch, the diagnostic stream and
process termination. -/
inductive Event where
  /-- The allocation `new detail::ThreadData(...)`. -/
  | newThreadData
  /-- The release `delete data`. -/
  | deleteThreadData
  /-- The call `pthread_create(&pthreadId_, NULL, &detail::startThread, data)` and its result. -/
  | pthread_create (rc : Int)
  /-- The call `pthread_join(pthreadId_, NULL)` and its result. -/
  | pthread_join (id : Nat) (rc : Int)
  /-- The call `pthread_detach(pthreadId_)`. -/
  | pthread_detach (id : Nat)
  /-- The call `latch_.wait()` has returned. -/
  | latchWait
  /-- The call `latch_->countDown()`. -/
  | countDown
  /-- The store `*tid_ = ...`. -/
  | writeTid (v : Int)
  /-- The call `::prctl(PR_SET_NAME, name)`. -/
  | prctl (name : String)
  /-- One `fprintf(stderr, ...)`. -/
  | stderr (text : String)
  /-- The call `abort()`. -/
  | abort
  /-- The exception in flight leaves the trampoline (`throw;`). -/
  | rethrow
  /-- The statement `LOG_SYSFATAL << msg`. -/
  | logSysFatal (msg : String)
  /-- A failed `assert(cond)`. -/
  | assertFail (cond : String)
  /-- The call `Thread::start` returns to its caller. -/
  | startReturn
  deriving DecidableEq, Repr

/-- The fields of `class Thread`. -/
structure Thread where
  started_ : Bool
  joined_ : Bool
  pthreadId_ : Nat
  tid_ : Int
  func_ : ThreadFunc
  name_ : String
  latch_ : CountDownLatch
  deriving DecidableEq, Repr

/-- Modelled from the spec: `AtomicInt32::incrementAndGet`
(muduo/base/Atomic.h is not among the sources), the atomic increment of "a
shared atomic integer"; the argument is the stored value, the result is the
new stored value, which is also the value returned. The integer has 32 bits. -/
def AtomicInt32.incrementAndGet (value_ : Int) : Int := toInt32 (value_ + 1)

/-- `Thread::setDefaultName`, on the handle and the counter `numCreated_`;
returns the handle and the new value of the counter. -/
def Thread.setDefaultName (t : Thread) (numCreated_ : Int) : Thread × Int :=
  let num : Int := toInt32 (AtomicInt32.incrementAndGet numCreated_)
  if t.name_.isEmpty then
    ({ t with name_ := snprintf 32 ("Thread" ++ fmt_d num) },
      AtomicInt32.incrementAndGet numCreated_)
  else
    (t, AtomicInt32.incrementAndGet numCreated_)

/-- The constructor `Thread::Thread(ThreadFunc func, const string& n)`, on the
counter `numCreated_`; returns the handle, the new value of the counter, and
what the constructor does to the outside, in order: nothing, the member
initialisers and `setDefaultName` call no native primitive.
(A definition named `Thread.Thread` would hide the type inside its namespace.) -/
def Thread.construct (func : ThreadFunc) (n : String) (numCreated_ : Int) :
    Thread × Int × List Event :=
  let r := Thread.setDefaultName
    { started_ := false, joined_ := false, pthreadId_ := 0, tid_ := 0,
      func_ := func, name_ := n, latch_ := { count_ := 1 } }
    numCreated_
  (r.1, r.2, [])

/-- The destructor `Thread::~Thread`: the native calls it makes, in order. -/
def Thread.destroy (t : Thread) : List Event :=
  if t.started_ && !t.joined_ then [Event.pthread_detach t.pthreadId_] else []

/-! ## The per-thread cached identity -/

/-- The thread-local variables of `namespace CurrentThread`; `tidStringSize`
is `sizeof t_tidString`, the declared size of the array. -/
structure CurrentThread where
  t_cachedTid : Int
  t_tidString : String
  t_tidStringLength : Int
  t_threadName : String
  tidStringSize : Nat
  deriving DecidableEq, Repr

/-- The function `detail::gettid`; `sys` is what `::syscall(SYS_gettid)` returns. -/
def detail.gettid (sys : Int) : Int := toInt32 sys

/-- The function `CurrentThread::cacheTid`; `sys` is what the `gettid` system
call returns in the calling thread. -/
def CurrentThread.cacheTid (c : CurrentThread) (sys : Int) : CurrentThread :=
  if c.t_cachedTid = 0 then
    { c with
      t_cachedTid := detail.gettid sys
      t_tidString := snprintf c.tidStringSize (fmt_5d (detail.gettid sys) ++ " ")
      t_tidStringLength := toInt32 (fmt_5d (detail.gettid sys) ++ " ").length }
  else c

/-- Modelled from the spec: `CurrentThread::tid` (muduo/base/CurrentThread.h
is not among the sources): "each thread lazily resolves and memoizes its own
kernel id on first query". Returns the thread-local state and the id. -/
def CurrentThread.tid (c : CurrentThread) (sys : Int) : CurrentThread × Int :=
  let c' := if c.t_cachedTid = 0 then c.cacheTid sys else c
  (c', c'.t_cachedTid)

/-- The function `CurrentThread::isMainThread`; `pid` is what `::getpid()` returns. -/
def CurrentThread.isMainThread (c : CurrentThread) (sys pid : Int) : CurrentThread × Bool :=
  let r := c.tid sys
  (r.1, r.2 == pid)

/-- The fork hook `detail::afterFork`, run by the forked child on the
thread-local state it inherited; `sys` is what the `gettid` system call
returns in the child. -/
def detail.afterFork (c : CurrentThread) (sys : Int) : CurrentThread :=
  ({ c with t_cachedTid := 0, t_threadName := "main" }.tid sys).1

/-- The constructor of `detail::ThreadNameInitializer`, run once in the main
thread when the process starts (`ThreadNameInitializer init;`), on the
thread-local state of that thread; `sys` is what the `gettid` system call
returns there. It also registers `afterFork` with `pthread_atfork`. -/
def detail.ThreadNameInitializer (c : CurrentThread) (sys : Int) : CurrentThread :=
  ({ c with t_threadName := "main" }.tid sys).1

/-- Modelled from the spec: the thread-local state of a thread that has not
yet queried its identity (muduo/base/CurrentThread.cc, which initialises the
variables, is not among the sources): the kernel id is 0, "lazily resolved".
The initial name tag and buffer play no role below. -/
def CurrentThread.fresh : CurrentThread :=
  { t_cachedTid := 0, t_tidString := "", t_tidStringLength := 0,
    t_threadName := "unknown", tidStringSize := 32 }

/-! ## The start-up payload and the entry trampoline -/

/-- A pointer member of the start-up payload: it refers to the field of the
owning handle, or it is `NULL`. -/
inductive Ptr where
  | handle
  | null
  deriving DecidableEq, Repr

/-- The fields of `struct ThreadData`. -/
structure ThreadData where
  func_ : ThreadFunc
  name_ : String
  tid_ : Ptr
  latch_ : Ptr
  deriving DecidableEq, Repr

/-- How `ThreadData::runInThread` is left: by returning, through `abort()`,
or by the exception that `throw;` lets escape. -/
inductive Exit where
  | returned
  | aborted
  | rethrown
  deriving DecidableEq, Repr

/-- The statements `*tid_ = muduo::CurrentThread::tid(); tid_ = NULL;` of
`runInThread`, on the payload, the thread-local state of the running thread
and the handle `tid_` points into. `none`: a store through `NULL`. -/
def ThreadData.runInThread_publish (d : ThreadData) (tl : CurrentThread) (sys : Int)
    (t : Thread) : Option (ThreadData × CurrentThread × Thread × List Event) :=
  match d.tid_ with
  | Ptr.null => none
  | Ptr.handle =>
    let r := tl.tid sys
    some ({ d with tid_ := Ptr.null }, r.1, { t with tid_ := r.2 }, [Event.writeTid r.2])

/-- The statements `latch_->countDown(); latch_ = NULL;` of `runInThread`.
`none`: a call through `NULL`. -/
def ThreadData.runInThread_countDown (d : ThreadData) (t : Thread) :
    Option (ThreadData × Thread × List Event) :=
  match d.latch_ with
  | Ptr.null => none
  | Ptr.handle =>
    some ({ d with latch_ := Ptr.null }, { t with latch_ := t.latch_.countDown },
      [Event.countDown])

/-- The rest of `runInThread`: the thread is named, the closure is called, and
the `try`/`catch` applies the failure policy. Only the thread-local state of
the running thread changes. The name and the texts of the exception go out
through `const char*` (`name_.c_str()`, `ex.what()`, `ex.stackTrace()`), hence
`c_str`. -/
def ThreadData.runInThread_call (d : ThreadData) (tl : CurrentThread) :
    CurrentThread × Exit × List Event :=
  let name := if d.name_.isEmpty then "muduoThread" else c_str d.name_
  let tl := { tl with t_threadName := name }
  match d.func_ with
  | ThreadFunc.returns =>
    ({ tl with t_threadName := "finished" }, Exit.returned, [Event.prctl name])
  | ThreadFunc.throwsException what stackTrace =>
    ({ tl with t_threadName := "crashed" }, Exit.aborted,
      [Event.prctl name,
       Event.stderr ("exception caught in Thread " ++ c_str d.name_ ++ "\n"),
       Event.stderr ("reason: " ++ c_str what ++ "\n"),
       Event.stderr ("stack trace: " ++ c_str stackTrace ++ "\n"),
       Event.abort])
  | ThreadFunc.throwsStdException what =>
    ({ tl with t_threadName := "crashed" }, Exit.aborted,
      [Event.prctl name,
       Event.stderr ("exception caught in Thread " ++ c_str d.name_ ++ "\n"),
       Event.stderr ("reason: " ++ c_str what ++ "\n"),
       Event.abort])
  | ThreadFunc.throwsOther =>
    ({ tl with t_threadName := "crashed" }, Exit.rethrown,
      [Event.prctl name,
       Event.stderr ("unknown exception caught in Thread " ++ c_str d.name_ ++ "\n"),
       Event.rethrow])

/-- The whole of `ThreadData::runInThread`, the three parts in program order,
on the payload, the thread-local state of the running thread and the handle
the payload points into. -/
def ThreadData.runInThread (d : ThreadData) (tl : CurrentThread) (sys : Int) (t : Thread) :
    Option (ThreadData × CurrentThread × Thread × Exit × List Event) :=
  match d.runInThread_publish tl sys t with
  | none => none
  | some (d1, tl1, t1, ev1) =>
    match d1.runInThread_countDown t1 with
    | none => none
    | some (d2, t2, ev2) =>
      let r := d2.runInThread_call tl1
      some (d2, r.1, t2, r.2.1, ev1 ++ ev2 ++ r.2.2)

/-- The function `detail::startThread`: `runInThread`, then `delete data` when
`runInThread` returns. -/
def detail.startThread (d : ThreadData) (tl : CurrentThread) (sys : Int) (t : Thread) :
    Option (CurrentThread × Thread × Exit × List Event) :=
  match d.runInThread tl sys t with
  | none => none
  | some (_, tl1, t1, Exit.returned, ev) =>
    some (tl1, t1, Exit.returned, ev ++ [Event.deleteThreadData])
  | some (_, tl1, t1, how, ev) => some (tl1, t1, how, ev)

/-! ## `Thread::start` and `Thread::join` -/

/-- The result of `Thread::start` up to and including the handling of what
`pthread_create` returned. -/
inductive StartCreate where
  /-- The check `assert(!started_)` failed. -/
  | assertFailed
  /-- The native thread exists and runs `startThread` on `data`. -/
  | created (t : Thread) (data : ThreadData)
  /-- The native thread could not be created. -/
  | failed (t : Thread)
  deriving DecidableEq, Repr

/-- The function `Thread::start` up to the `if`/`else` on the result of
`pthread_create`, the first branch included. `rc` is what `pthread_create`
returns and `nativeId` what it leaves in `pthreadId_`. -/
def Thread.start_create (t : Thread) (rc : Int) (nativeId : Nat) :
    StartCreate × List Event :=
  if t.started_ then
    (StartCreate.assertFailed, [Event.assertFail "!started_"])
  else
    let t1 := { t with started_ := true }
    let data : ThreadData :=
      { func_ := t1.func_, name_ := t1.name_, tid_ := Ptr.handle, latch_ := Ptr.handle }
    let t2 := { t1 with pthreadId_ := nativeId }
    if rc ≠ 0 then
      (StartCreate.failed { t2 with started_ := false },
        [Event.newThreadData, Event.pthread_create rc, Event.deleteThreadData,
         Event.logSysFatal "Failed in pthread_create"])
    else
      (StartCreate.created t2 data, [Event.newThreadData, Event.pthread_create rc])

/-- The `else` branch of `Thread::start`: `latch_.wait(); assert(tid_ > 0);`.
`none`: the caller is blocked in `wait`. `some true`: `start` returns.
`some false`: the assertion failed. -/
def Thread.start_wait (t : Thread) : Option (Bool × List Event) :=
  if t.latch_.waitReturns then
    if 0 < t.tid_ then some (true, [Event.latchWait, Event.startReturn])
    else some (false, [Event.latchWait, Event.assertFail "tid_ > 0"])
  else none

/-- The function `Thread::join`; `rc` is what `pthread_join` returns. The
result is `none` when an assertion failed, and the handle together with the
returned value otherwise. -/
def Thread.join (t : Thread) (rc : Int) : Option (Thread × Int) × List Event :=
  if !t.started_ then (none, [Event.assertFail "started_"])
  else if t.joined_ then (none, [Event.assertFail "!joined_"])
  else (some ({ t with joined_ := true }, rc), [Event.pthread_join t.pthreadId_ rc])

/-! ## The creator and the child as one system

The creator (the thread that owns the handle) and the native thread that
`pthread_create` spawns run concurrently. A state of the system holds the
handle, where each of the two threads stands, and what has happened so far;
an `Action` is one atomic step of one of the two threads, with what the
operating system answers in it. The scheduler is free: every order of steps
that the code allows is a run.

Where the code hands over to something outside it, the system keeps going,
which only adds runs: `pthread_join` may return at any time, and the process
goes on after `LOG_SYSFATAL` and after an exception has left the trampoline. -/

/-- Where the spawned thread stands in `startThread`/`runInThread`. -/
inductive ChildPc where
  /-- At the first statement of `runInThread`. -/
  | entry
  /-- After `*tid_ = ...; tid_ = NULL;`. -/
  | published
  /-- After `latch_->countDown(); latch_ = NULL;`. -/
  | released
  /-- The trampoline has been left. -/
  | exited (how : Exit)
  deriving DecidableEq, Repr

/-- The spawned thread: where it stands, its payload, its thread-local state. -/
structure Child where
  pc : ChildPc
  data : ThreadData
  tl : CurrentThread
  deriving DecidableEq, Repr

/-- Where the creator stands: outside the member functions of the handle, or
inside `start`, at `latch_.wait()`. -/
inductive CreatorPc where
  | idle
  | inStart
  deriving DecidableEq, Repr

/-- A state of the system of one handle. -/
structure Sys where
  thread : Thread
  creator : CreatorPc
  child : Option Child
  /-- The process has been terminated (`abort()`, failed assertion). -/
  halted : Bool
  /-- Everything done so far, oldest first. -/
  trace : List Event
  deriving DecidableEq, Repr

/-- One atomic step of the creator or of the child. -/
inductive Action where
  /-- The creator calls `start()`; `pthread_create` returns `rc` and leaves
  `nativeId` in `pthreadId_`. -/
  | startCall (rc : Int) (nativeId : Nat)
  /-- The creator leaves `latch_.wait()`, checks `tid_ > 0`, and `start()` returns. -/
  | startReturn
  /-- The creator calls `join()`; `pthread_join` returns `rc`. -/
  | join (rc : Int)
  /-- The child stores its kernel id; the `gettid` system call returns `sys`. -/
  | childPublish (sys : Int)
  /-- The child decrements the latch. -/
  | childCountDown
  /-- The child names itself, calls the closure, and leaves `startThread`. -/
  | childCall
  deriving DecidableEq, Repr

/-- The system right after the construction of the handle `t`. -/
def Sys.init (t : Thread) : Sys :=
  { thread := t, creator := CreatorPc.idle, child := none, halted := false, trace := [] }

/-- One step. `none`: the action is not possible in this state (the process
is gone, the thread is blocked or stands elsewhere, or does not exist). -/
def Sys.step (s : Sys) (a : Action) : Option Sys :=
  if s.halted then none else
  match a with
  | Action.startCall rc nativeId =>
    if s.creator ≠ CreatorPc.idle then none else
    match s.thread.start_create rc nativeId with
    | (StartCreate.assertFailed, ev) =>
      some { s with halted := true, trace := s.trace ++ ev }
    | (StartCreate.failed t, ev) =>
      some { s with thread := t, trace := s.trace ++ ev }
    | (StartCreate.created t data, ev) =>
      some { s with
        thread := t, creator := CreatorPc.inStart,
        child := some { pc := ChildPc.entry, data := data, tl := CurrentThread.fresh },
        trace := s.trace ++ ev }
  | Action.startReturn =>
    if s.creator ≠ CreatorPc.inStart then none else
    match s.thread.start_wait with
    | none => none
    | some (true, ev) => some { s with creator := CreatorPc.idle, trace := s.trace ++ ev }
    | some (false, ev) => some { s with halted := true, trace := s.trace ++ ev }
  | Action.join rc =>
    if s.creator ≠ CreatorPc.idle then none else
    match s.thread.join rc with
    | (none, ev) => some { s with halted := true, trace := s.trace ++ ev }
    | (some (t, _), ev) => some { s with thread := t, trace := s.trace ++ ev }
  | Action.childPublish sys =>
    match s.child with
    | none => none
    | some c =>
      if c.pc ≠ ChildPc.entry then none else
      match c.data.runInThread_publish c.tl sys s.thread with
      | none => none
      | some (d, tl, t, ev) =>
        some { s with
          thread := t, child := some { pc := ChildPc.published, data := d, tl := tl },
          trace := s.trace ++ ev }
  | Action.childCountDown =>
    match s.child with
    | none => none
    | some c =>
      if c.pc ≠ ChildPc.published then none else
      match c.data.runInThread_countDown s.thread with
      | none => none
      | some (d, t, ev) =>
        some { s with
          thread := t, child := some { c with pc := ChildPc.released, data := d },
          trace := s.trace ++ ev }
  | Action.childCall =>
    match s.child with
    | none => none
    | some c =>
      if c.pc ≠ ChildPc.released then none else
      match c.data.runInThread_call c.tl with
      | (tl, Exit.returned, ev) =>
        some { s with
          child := some { c with pc := ChildPc.exited Exit.returned, tl := tl },
          trace := s.trace ++ ev ++ [Event.deleteThreadData] }
      | (tl, Exit.aborted, ev) =>
        some { s with
          child := some { c with pc := ChildPc.exited Exit.aborted, tl := tl },
          halted := true, trace := s.trace ++ ev }
      | (tl, Exit.rethrown, ev) =>
        some { s with
          child := some { c with pc := ChildPc.exited Exit.rethrown, tl := tl },
          trace := s.trace ++ ev }

/-- A run: the actions of a schedule, one after the other. `none`: some action
of the schedule is not possible when its turn comes. -/
def Sys.run (s : Sys) : List Action → Option Sys
  | [] => some s
  | a :: rest =>
    match s.step a with
    | none => none
    | some s1 => s1.run rest

/-- The kernel ids that the operating system hands out in a schedule are
positive (as 32-bit values). -/
def Action.osOk : Action → Prop
  | Action.childPublish sys => 0 < detail.gettid sys
  | _ => True

instance (a : Action) : Decidable a.osOk := by
  cases a <;> unfold Action.osOk <;> infer_instance

/-- The three events of the start-up rendezvous: the store of the kernel id,
the decrement of the latch, the return of `start`. -/
def Event.isRendezvous : Event → Bool
  | Event.writeTid _ => true
  | Event.countDown => true
  | Event.startReturn => true
  | _ => false

/-- A stretch of the trace without any event of the rendezvous. -/
def Quiet (l : List Event) : Prop := ∀ e ∈ l, e.isRendezvous = false

/-- How far the rendezvous has got. -/
inductive Phase where
  /-- The child has not stored its kernel id (or does not exist). -/
  | before
  /-- The child has stored its kernel id and not yet decremented the latch. -/
  | published
  /-- The child has decremented the latch and `start` has not returned. -/
  | released
  /-- The call of `start` has returned. -/
  | returned
  deriving DecidableEq, Repr

/-- The shape of the trace in each phase, `k` being the kernel id stored: the
events of the rendezvous that have happened occur once each and in the order
store, decrement, return. -/
def TraceAt : Phase → Int → List Event → Prop
  | Phase.before, _, tr => Quiet tr
  | Phase.published, k, tr => ∃ p q, tr = p ++ Event.writeTid k :: q ∧ Quiet p ∧ Quiet q
  | Phase.released, k, tr =>
    ∃ p q r, tr = p ++ Event.writeTid k :: (q ++ Event.countDown :: r) ∧
      Quiet p ∧ Quiet q ∧ Quiet r
  | Phase.returned, k, tr =>
    ∃ p q r u, tr = p ++ Event.writeTid k ::
        (q ++ Event.countDown :: (r ++ Event.startReturn :: u)) ∧
      Quiet p ∧ Quiet q ∧ Quiet r ∧ Quiet u

/-- The events of the rendezvous that have happened when a phase is reached,
in order, `k` being the kernel id stored. -/
def rendezvousEvents (k : Int) : Phase → List Event
  | Phase.before => []
  | Phase.published => [Event.writeTid k]
  | Phase.released => [Event.writeTid k, Event.countDown]
  | Phase.returned => [Event.writeTid k, Event.countDown, Event.startReturn]

/-- How far the rendezvous has got in a state of the system. -/
def Sys.phase (s : Sys) : Phase :=
  match s.child with
  | none => Phase.before
  | some c =>
    match c.pc with
    | ChildPc.entry => Phase.before
    | ChildPc.published => Phase.published
    | _ =>
      match s.creator with
      | CreatorPc.inStart => Phase.released
      | CreatorPc.idle => Phase.returned

/-- What holds of the handle and of the payload at each place where the child
and the creator can stand. -/
def Sys.StateInv (s : Sys) : Prop :=
  match s.child with
  | none =>
    s.thread.started_ = false ∧ s.thread.joined_ = false ∧ s.thread.tid_ = 0 ∧
    s.thread.latch_.count_ = 1 ∧ s.creator = CreatorPc.idle
  | some c =>
    s.thread.started_ = true ∧
    match c.pc with
    | ChildPc.entry =>
      s.thread.joined_ = false ∧ s.thread.tid_ = 0 ∧ s.thread.latch_.count_ = 1 ∧
      s.creator = CreatorPc.inStart ∧ c.data.tid_ = Ptr.handle ∧
      c.data.latch_ = Ptr.handle ∧ c.tl.t_cachedTid = 0
    | ChildPc.published =>
      s.thread.joined_ = false ∧ s.thread.tid_ = c.tl.t_cachedTid ∧
      s.thread.latch_.count_ = 1 ∧ s.creator = CreatorPc.inStart ∧
      c.data.latch_ = Ptr.handle
    | _ =>
      s.thread.tid_ = c.tl.t_cachedTid ∧ s.thread.latch_.count_ = 0 ∧
      match s.creator with
      | CreatorPc.inStart => s.thread.joined_ = false
      | CreatorPc.idle => 0 < s.thread.tid_

/-- The invariant of the system: the state is as `StateInv` says and the
trace has the shape of the phase. -/
def Sys.Inv (s : Sys) : Prop :=
  s.StateInv ∧ TraceAt s.phase s.thread.tid_ s.trace

/-- The handles and the values of the counter that a sequence of constructions
yields, one after the other, in one process; `numCreated_` is the counter
before the first of them. Each handle comes with the value of the counter
right after its construction. -/
def constructAll : List (ThreadFunc × String) → Int → List (Thread × Int)
  | [], _ => []
  | (func, n) :: rest, numCreated_ =>
    ((Thread.construct func n numCreated_).1, (Thread.construct func n numCreated_).2.1) ::
      constructAll rest (Thread.construct func n numCreated_).2.1

/-! ## Concrete states -/

/-- The first handle of a process, constructed without a name, its closure
returning normally. -/
def exampleHandle : Thread := (Thread.construct ThreadFunc.returns "" 0).1

/-- A schedule in which `start` succeeds: the child, with kernel id 4242,
stores its id and decrements the latch, and `start` returns. -/
def exampleSchedule : List Action :=
  [Action.startCall 0 7, Action.childPublish 4242, Action.childCountDown, Action.startReturn]

/-- The system of `exampleHandle` after `exampleSchedule`. -/
def exampleStarted : Sys :=
  ((Sys.init exampleHandle).run exampleSchedule).getD (Sys.init exampleHandle)

/-- The number that a list of decimal digits denotes (used to read a rendered
number back). -/
def decimalValue (cs : List Char) : Nat :=
  cs.foldl (fun acc c => 10 * acc + (c.toNat - 48)) 0

/-! ## The invariant is kept by every step -/

theorem quiet_append {l m : List Event} (hl : Quiet l) (hm : Quiet m) : Quiet (l ++ m) := by
  intro e he
  rcases List.mem_append.mp he with h | h
  · exact hl e h
  · exact hm e h

theorem quiet_nil : Quiet [] := by intro e he; cases he

theorem quiet_start_create (t : Thread) (rc : Int) (nativeId : Nat) :
    Quiet (t.start_create rc nativeId).2 := by
  unfold Thread.start_create
  split
  · simp [Quiet, Event.isRendezvous]
  · split <;> simp [Quiet, Event.isRendezvous]

theorem quiet_join (t : Thread) (rc : Int) : Quiet (t.join rc).2 := by
  unfold Thread.join
  split
  · simp [Quiet, Event.isRendezvous]
  · split <;> simp [Quiet, Event.isRendezvous]

theorem quiet_call (d : ThreadData) (tl : CurrentThread) : Quiet (d.runInThread_call tl).2.2 := by
  unfold ThreadData.runInThread_call
  cases hf : d.func_ <;> simp [Quiet, Event.isRendezvous]

theorem traceAt_append {ph : Phase} {k : Int} {tr ev : List Event}
    (h : TraceAt ph k tr) (hq : Quiet ev) : TraceAt ph k (tr ++ ev) := by
  cases ph with
  | before => exact quiet_append h hq
  | published =>
    obtain ⟨p, q, rfl, hp, hq'⟩ := h
    exact ⟨p, q ++ ev, by simp, hp, quiet_append hq' hq⟩
  | released =>
    obtain ⟨p, q, r, rfl, hp, hq', hr⟩ := h
    exact ⟨p, q, r ++ ev, by simp, hp, hq', quiet_append hr hq⟩
  | returned =>
    obtain ⟨p, q, r, u, rfl, hp, hq', hr, hu⟩ := h
    exact ⟨p, q, r, u ++ ev, by simp, hp, hq', hr, quiet_append hu hq⟩

theorem traceAt_publish {k0 k : Int} {tr : List Event} (h : TraceAt Phase.before k0 tr) :
    TraceAt Phase.published k (tr ++ [Event.writeTid k]) :=
  ⟨tr, [], rfl, h, quiet_nil⟩

theorem traceAt_countDown {k : Int} {tr : List Event} (h : TraceAt Phase.published k tr) :
    TraceAt Phase.released k (tr ++ [Event.countDown]) := by
  obtain ⟨p, q, rfl, hp, hq⟩ := h
  exact ⟨p, q, [], by simp, hp, hq, quiet_nil⟩

theorem traceAt_return {k : Int} {tr : List Event} (h : TraceAt Phase.released k tr) :
    TraceAt Phase.returned k (tr ++ [Event.latchWait, Event.startReturn]) := by
  obtain ⟨p, q, r, rfl, hp, hq, hr⟩ := h
  refine ⟨p, q, r ++ [Event.latchWait], [], by simp, hp, hq, ?_, quiet_nil⟩
  exact quiet_append hr (by simp [Quiet, Event.isRendezvous])

/-- Only the trace grows, by events outside the rendezvous, and the process may stop. -/
theorem inv_grow {s : Sys} (h : s.Inv) (b : Bool) {ev : List Event} (hq : Quiet ev) :
    Sys.Inv { s with halted := b, trace := s.trace ++ ev } :=
  ⟨h.1, traceAt_append h.2 hq⟩

theorem start_create_failed {t t' : Thread} {rc : Int} {nativeId : Nat} {ev : List Event}
    (h : t.start_create rc nativeId = (StartCreate.failed t', ev)) :
    t.started_ = false ∧ rc ≠ 0 ∧ t' = { t with pthreadId_ := nativeId } := by
  unfold Thread.start_create at h
  cases hst : t.started_ <;> simp only [hst, Bool.false_eq_true, if_false, if_true] at h
  · by_cases hrc : rc = 0
    · simp [hrc] at h
    · simp only [ne_eq, hrc, not_false_eq_true, if_true, Prod.mk.injEq,
        StartCreate.failed.injEq] at h
      refine ⟨rfl, hrc, ?_⟩
      rw [← h.1]
  · simp at h

theorem start_create_created {t t' : Thread} {d : ThreadData} {rc : Int} {nativeId : Nat}
    {ev : List Event} (h : t.start_create rc nativeId = (StartCreate.created t' d, ev)) :
    t.started_ = false ∧ rc = 0 ∧ t' = { t with started_ := true, pthreadId_ := nativeId } ∧
      d = { func_ := t.func_, name_ := t.name_, tid_ := Ptr.handle, latch_ := Ptr.handle } := by
  unfold Thread.start_create at h
  cases hst : t.started_ <;> simp only [hst, Bool.false_eq_true, if_false, if_true] at h
  · by_cases hrc : rc = 0
    · simp only [hrc, ne_eq, not_true_eq_false, if_false, Prod.mk.injEq,
        StartCreate.created.injEq] at h
      exact ⟨rfl, hrc, h.1.1.symm, h.1.2.symm⟩
    · simp [hrc] at h
  · simp at h

theorem inv_startCall {s s' : Sys} (rc : Int) (nativeId : Nat) (h : s.Inv)
    (hs : s.step (Action.startCall rc nativeId) = some s') : s'.Inv := by
  have hq := quiet_start_create s.thread rc nativeId
  unfold Sys.step at hs
  split at hs
  · cases hs
  · simp only at hs
    split at hs
    · cases hs
    · rename_i hcr
      split at hs
      · rename_i ev heq
        cases hs
        rw [heq] at hq
        exact inv_grow h true hq
      · rename_i t ev heq
        cases hs
        rw [heq] at hq
        obtain ⟨hns, -, rfl⟩ := start_create_failed heq
        obtain ⟨th, cr, ch, hl, tr⟩ := s
        obtain ⟨hst, htr⟩ := h
        cases ch with
        | some c => simp [Sys.StateInv] at hst hns; simp [hst.1] at hns
        | none => exact ⟨hst, traceAt_append htr hq⟩
      · rename_i t d ev heq
        cases hs
        rw [heq] at hq
        obtain ⟨hns, -, rfl, rfl⟩ := start_create_created heq
        obtain ⟨th, cr, ch, hl, tr⟩ := s
        obtain ⟨hst, htr⟩ := h
        cases ch with
        | some c => simp [Sys.StateInv] at hst hns; simp [hst.1] at hns
        | none =>
          simp only [Sys.StateInv] at hst
          refine ⟨?_, traceAt_append htr hq⟩
          simp only [Sys.StateInv, CurrentThread.fresh]
          simp_all

theorem start_wait_some {t : Thread} {b : Bool} {ev : List Event}
    (h : t.start_wait = some (b, ev)) :
    t.latch_.count_ = 0 ∧
      ((b = true ∧ 0 < t.tid_ ∧ ev = [Event.latchWait, Event.startReturn]) ∨
       (b = false ∧ ¬ 0 < t.tid_ ∧ ev = [Event.latchWait, Event.assertFail "tid_ > 0"])) := by
  unfold Thread.start_wait CountDownLatch.waitReturns at h
  by_cases hc : t.latch_.count_ = 0
  · refine ⟨hc, ?_⟩
    by_cases hp : 0 < t.tid_
    · simp [hc, hp] at h
      exact Or.inl ⟨h.1, hp, h.2.symm⟩
    · simp [hc, hp] at h
      exact Or.inr ⟨h.1, hp, h.2.symm⟩
  · simp [hc] at h

theorem inv_startReturn {s s' : Sys} (h : s.Inv)
    (hs : s.step Action.startReturn = some s') : s'.Inv := by
  unfold Sys.step at hs
  split at hs
  · cases hs
  · simp only at hs
    split at hs
    · cases hs
    · rename_i hcr
      split at hs
      · cases hs
      · rename_i ev heq
        cases hs
        obtain ⟨hc, h1 | h1⟩ := start_wait_some heq
        · obtain ⟨-, hpos, rfl⟩ := h1
          obtain ⟨th, cr, ch, hl, tr⟩ := s
          obtain ⟨hst, htr⟩ := h
          simp only [ne_eq, Decidable.not_not] at hcr
          subst hcr
          cases ch with
          | none => simp [Sys.StateInv] at hst
          | some c =>
            obtain ⟨pc, d, tl⟩ := c
            cases pc <;> simp only [Sys.StateInv] at hst <;>
              simp only [Sys.phase] at htr
            · simp_all
            · simp_all
            · exact ⟨by simp only [Sys.StateInv]; simp_all, traceAt_return htr⟩
            · exact ⟨by simp only [Sys.StateInv]; simp_all, traceAt_return htr⟩
        · simp at h1
      · rename_i ev heq
        cases hs
        obtain ⟨hc, h1 | h1⟩ := start_wait_some heq
        · simp at h1
        · obtain ⟨-, -, rfl⟩ := h1
          exact inv_grow h true (by simp [Quiet, Event.isRendezvous])

theorem join_some {t t' : Thread} {rc v : Int} {ev : List Event}
    (h : t.join rc = (some (t', v), ev)) :
    t.started_ = true ∧ t.joined_ = false ∧ t' = { t with joined_ := true } ∧ v = rc ∧
      ev = [Event.pthread_join t.pthreadId_ rc] := by
  unfold Thread.join at h
  cases hst : t.started_ <;> cases hj : t.joined_ <;> simp [hst, hj] at h
  exact ⟨rfl, rfl, h.1.1.symm, h.1.2.symm, h.2.symm⟩

theorem inv_join {s s' : Sys} (rc : Int) (h : s.Inv)
    (hs : s.step (Action.join rc) = some s') : s'.Inv := by
  have hq := quiet_join s.thread rc
  unfold Sys.step at hs
  split at hs
  · cases hs
  · simp only at hs
    split at hs
    · cases hs
    · rename_i hcr
      split at hs
      · rename_i ev heq
        cases hs
        rw [heq] at hq
        exact inv_grow h true hq
      · rename_i t v ev heq
        cases hs
        rw [heq] at hq
        obtain ⟨hst', hj, rfl, -, -⟩ := join_some heq
        obtain ⟨th, cr, ch, hl, tr⟩ := s
        obtain ⟨hst, htr⟩ := h
        simp only [ne_eq, Decidable.not_not] at hcr
        subst hcr
        refine ⟨?_, traceAt_append htr hq⟩
        cases ch with
        | none => simp [Sys.StateInv] at hst hst'; simp [hst.1] at hst'
        | some c =>
          obtain ⟨pc, d, tl⟩ := c
          cases pc <;> simp only [Sys.StateInv] at hst ⊢ <;> first | exact hst | simp_all

theorem publish_some {d d' : ThreadData} {tl tl' : CurrentThread} {sys : Int} {t t' : Thread}
    {ev : List Event} (h : d.runInThread_publish tl sys t = some (d', tl', t', ev)) :
    d.tid_ = Ptr.handle ∧ d' = { d with tid_ := Ptr.null } ∧ tl' = (tl.tid sys).1 ∧
      t' = { t with tid_ := (tl.tid sys).2 } ∧ ev = [Event.writeTid (tl.tid sys).2] := by
  unfold ThreadData.runInThread_publish at h
  cases hp : d.tid_ <;> simp [hp] at h
  exact ⟨rfl, h.1.symm, h.2.1.symm, h.2.2.1.symm, h.2.2.2.symm⟩

theorem tid_snd (tl : CurrentThread) (sys : Int) :
    (tl.tid sys).2 = (tl.tid sys).1.t_cachedTid := rfl

theorem tid_of_zero {tl : CurrentThread} (h : tl.t_cachedTid = 0) (sys : Int) :
    (tl.tid sys).2 = detail.gettid sys := by
  simp [CurrentThread.tid, CurrentThread.cacheTid, h]

theorem inv_childPublish {s s' : Sys} (sys : Int) (h : s.Inv)
    (hs : s.step (Action.childPublish sys) = some s') : s'.Inv := by
  unfold Sys.step at hs
  split at hs
  · cases hs
  · simp only at hs
    split at hs
    · cases hs
    · rename_i c hc
      split at hs
      · cases hs
      · rename_i hpc
        split at hs
        · cases hs
        · rename_i d tl t ev heq
          cases hs
          obtain ⟨-, rfl, rfl, rfl, rfl⟩ := publish_some heq
          obtain ⟨th, cr, ch, hl, tr⟩ := s
          obtain ⟨hst, htr⟩ := h
          simp only at hc
          subst hc
          obtain ⟨pc, d, tl⟩ := c
          simp only [ne_eq, Decidable.not_not] at hpc
          subst hpc
          simp only [Sys.StateInv] at hst
          simp only [Sys.phase] at htr
          refine ⟨?_, traceAt_publish htr⟩
          simp only [Sys.StateInv]
          simp_all [tid_snd]

theorem countDown_some {d d' : ThreadData} {t t' : Thread} {ev : List Event}
    (h : d.runInThread_countDown t = some (d', t', ev)) :
    d.latch_ = Ptr.handle ∧ d' = { d with latch_ := Ptr.null } ∧
      t' = { t with latch_ := t.latch_.countDown } ∧ ev = [Event.countDown] := by
  unfold ThreadData.runInThread_countDown at h
  cases hp : d.latch_ <;> simp [hp] at h
  exact ⟨rfl, h.1.symm, h.2.1.symm, h.2.2.symm⟩

theorem inv_childCountDown {s s' : Sys} (h : s.Inv)
    (hs : s.step Action.childCountDown = some s') : s'.Inv := by
  unfold Sys.step at hs
  split at hs
  · cases hs
  · simp only at hs
    split at hs
    · cases hs
    · rename_i c hc
      split at hs
      · cases hs
      · rename_i hpc
        split at hs
        · cases hs
        · rename_i d t ev heq
          cases hs
          obtain ⟨-, rfl, rfl, rfl⟩ := countDown_some heq
          obtain ⟨th, cr, ch, hl, tr⟩ := s
          obtain ⟨hst, htr⟩ := h
          simp only at hc
          subst hc
          obtain ⟨pc, d, tl⟩ := c
          simp only [ne_eq, Decidable.not_not] at hpc
          subst hpc
          simp only [Sys.StateInv] at hst
          simp only [Sys.phase] at htr
          obtain ⟨h1, h2, h3, h4, h5, h6⟩ := hst
          subst h5
          refine ⟨?_, traceAt_countDown htr⟩
          simp only [Sys.StateInv, CountDownLatch.countDown]
          simp_all

theorem call_cachedTid (d : ThreadData) (tl : CurrentThread) :
    (d.runInThread_call tl).1.t_cachedTid = tl.t_cachedTid := by
  unfold ThreadData.runInThread_call
  cases d.func_ <;> rfl

theorem inv_exit {th : Thread} {cr : CreatorPc} {d : ThreadData} {tl tl' : CurrentThread}
    {hl b : Bool} {tr ev : List Event} (how : Exit)
    (h : Sys.Inv
      { thread := th, creator := cr,
        child := some { pc := ChildPc.released, data := d, tl := tl },
        halted := hl, trace := tr })
    (htl : tl'.t_cachedTid = tl.t_cachedTid) (hq : Quiet ev) :
    Sys.Inv
      { thread := th, creator := cr,
        child := some { pc := ChildPc.exited how, data := d, tl := tl' },
        halted := b, trace := tr ++ ev } := by
  obtain ⟨hst, htr⟩ := h
  refine ⟨?_, ?_⟩
  · simp only [Sys.StateInv] at hst ⊢
    rw [htl]
    exact hst
  · cases cr <;> exact traceAt_append htr hq

theorem inv_childCall {s s' : Sys} (h : s.Inv)
    (hs : s.step Action.childCall = some s') : s'.Inv := by
  unfold Sys.step at hs
  split at hs
  · cases hs
  · simp only at hs
    split at hs
    · cases hs
    · rename_i c hc
      obtain ⟨th, cr, ch, hl, tr⟩ := s
      simp only at hc
      subst hc
      obtain ⟨pc, d, tl⟩ := c
      have hq := quiet_call d tl
      have hk := call_cachedTid d tl
      split at hs
      · cases hs
      · rename_i hpc
        simp only [ne_eq, Decidable.not_not] at hpc
        subst hpc
        split at hs <;> rename_i tl' ev heq <;> cases hs <;> simp only at heq <;>
          rw [heq] at hq hk
        · have hdel : Quiet [Event.deleteThreadData] := by simp [Quiet, Event.isRendezvous]
          have := @inv_exit th cr d tl tl' hl hl tr _ Exit.returned h hk
            (quiet_append hq hdel)
          simpa using this
        · exact inv_exit Exit.aborted h hk hq
        · exact inv_exit Exit.rethrown h hk hq

theorem inv_step {s s' : Sys} {a : Action} (h : s.Inv) (hs : s.step a = some s') : s'.Inv := by
  cases a with
  | startCall rc nativeId => exact inv_startCall rc nativeId h hs
  | startReturn => exact inv_startReturn h hs
  | join rc => exact inv_join rc h hs
  | childPublish sys => exact inv_childPublish sys h hs
  | childCountDown => exact inv_childCountDown h hs
  | childCall => exact inv_childCall h hs

/-! ## Runs -/

theorem inv_run {s s' : Sys} (sched : List Action) (h : s.Inv) (hr : s.run sched = some s') :
    s'.Inv := by
  induction sched generalizing s with
  | nil => simp only [Sys.run, Option.some.injEq] at hr; exact hr ▸ h
  | cons a rest ih =>
    simp only [Sys.run] at hr
    cases hs : s.step a with
    | none => simp [hs] at hr
    | some s1 =>
      simp only [hs] at hr
      exact ih (inv_step h hs) hr

theorem inv_init (func : ThreadFunc) (n : String) (c : Int) :
    (Sys.init (Thread.construct func n c).1).Inv := by
  unfold Thread.construct Thread.setDefaultName
  split
  · exact ⟨⟨rfl, rfl, rfl, rfl, rfl⟩, quiet_nil⟩
  · exact ⟨⟨rfl, rfl, rfl, rfl, rfl⟩, quiet_nil⟩

theorem inv_reachable {func : ThreadFunc} {n : String} {c : Int} {sched : List Action} {s : Sys}
    (hr : (Sys.init (Thread.construct func n c).1).run sched = some s) : s.Inv :=
  inv_run sched (inv_init func n c) hr

theorem filter_quiet {l : List Event} (h : Quiet l) : l.filter Event.isRendezvous = [] := by
  rw [List.filter_eq_nil_iff]
  intro e he
  simp [h e he]

theorem traceAt_filter {ph : Phase} {k : Int} {tr : List Event} (h : TraceAt ph k tr) :
    tr.filter Event.isRendezvous = rendezvousEvents k ph := by
  cases ph with
  | before => exact filter_quiet h
  | published =>
    obtain ⟨p, q, rfl, hp, hq⟩ := h
    simp [filter_quiet hp, filter_quiet hq, Event.isRendezvous, rendezvousEvents]
  | released =>
    obtain ⟨p, q, r, rfl, hp, hq, hr⟩ := h
    simp [filter_quiet hp, filter_quiet hq, filter_quiet hr, Event.isRendezvous,
      rendezvousEvents]
  | returned =>
    obtain ⟨p, q, r, u, rfl, hp, hq, hr, hu⟩ := h
    simp [filter_quiet hp, filter_quiet hq, filter_quiet hr, filter_quiet hu,
      Event.isRendezvous, rendezvousEvents]

/-- A step leaves the kernel id of the handle alone, except the store of the child, which
finds it 0. -/
theorem step_tid {s s' : Sys} {a : Action} (h : s.Inv) (hs : s.step a = some s') :
    s'.thread.tid_ = s.thread.tid_ ∨
      (s.thread.tid_ = 0 ∧ ∃ sys, a = Action.childPublish sys ∧
        s'.thread.tid_ = detail.gettid sys) := by
  unfold Sys.step at hs
  split at hs
  · cases hs
  · cases a with
    | startCall rc nativeId =>
      simp only at hs
      split at hs
      · cases hs
      · split at hs
        · cases hs; exact Or.inl rfl
        · rename_i t ev heq
          cases hs
          obtain ⟨-, -, rfl⟩ := start_create_failed heq
          exact Or.inl rfl
        · rename_i t d ev heq
          cases hs
          obtain ⟨-, -, rfl, -⟩ := start_create_created heq
          exact Or.inl rfl
    | startReturn =>
      simp only at hs
      split at hs
      · cases hs
      · split at hs
        · cases hs
        · cases hs; exact Or.inl rfl
        · cases hs; exact Or.inl rfl
    | join rc =>
      simp only at hs
      split at hs
      · cases hs
      · split at hs
        · cases hs; exact Or.inl rfl
        · rename_i t v ev heq
          cases hs
          obtain ⟨-, -, rfl, -, -⟩ := join_some heq
          exact Or.inl rfl
    | childPublish sys =>
      simp only at hs
      split at hs
      · cases hs
      · rename_i c hc
        split at hs
        · cases hs
        · rename_i hpc
          split at hs
          · cases hs
          · rename_i d tl t ev heq
            cases hs
            obtain ⟨-, rfl, rfl, rfl, rfl⟩ := publish_some heq
            obtain ⟨th, cr, ch, hl, tr⟩ := s
            simp only at hc
            subst hc
            obtain ⟨pc, d, tl⟩ := c
            simp only [ne_eq, Decidable.not_not] at hpc
            subst hpc
            have hst := h.1
            simp only [Sys.StateInv] at hst
            exact Or.inr ⟨hst.2.2.1, sys, rfl, tid_of_zero hst.2.2.2.2.2.2.2 sys⟩
    | childCountDown =>
      simp only at hs
      split at hs
      · cases hs
      · split at hs
        · cases hs
        · split at hs
          · cases hs
          · rename_i d t ev heq
            cases hs
            obtain ⟨-, rfl, rfl, rfl⟩ := countDown_some heq
            exact Or.inl rfl
    | childCall =>
      simp only at hs
      split at hs
      · cases hs
      · split at hs
        · cases hs
        · split at hs <;> cases hs <;> exact Or.inl rfl

theorem run_tid {s s' : Sys} (sched : List Action) (h : s.Inv) (hr : s.run sched = some s') :
    s'.thread.tid_ = s.thread.tid_ ∨
      (s.thread.tid_ = 0 ∧ ∃ sys, Action.childPublish sys ∈ sched ∧
        s'.thread.tid_ = detail.gettid sys) := by
  induction sched generalizing s with
  | nil => simp only [Sys.run, Option.some.injEq] at hr; exact Or.inl (hr ▸ rfl)
  | cons a rest ih =>
    simp only [Sys.run] at hr
    cases hs : s.step a with
    | none => simp [hs] at hr
    | some s1 =>
      simp only [hs] at hr
      rcases ih (inv_step h hs) hr with h2 | ⟨h0, sys, hmem, h2⟩
      · rcases step_tid h hs with h1 | ⟨h0, sys, rfl, h1⟩
        · exact Or.inl (h2.trans h1)
        · exact Or.inr ⟨h0, sys, List.mem_cons_self _ _, h2.trans h1⟩
      · rcases step_tid h hs with h1 | ⟨h0', sys', rfl, h1⟩
        · exact Or.inr ⟨h1 ▸ h0, sys, List.mem_cons_of_mem _ hmem, h2⟩
        · exact Or.inr ⟨h0', sys, List.mem_cons_of_mem _ hmem, h2⟩

/-! ## Formatting and the counter -/

theorem toInt32_range (x : Int) : -2147483648 ≤ toInt32 x ∧ toInt32 x ≤ 2147483647 := by
  unfold toInt32; omega

theorem toInt32_of_range {x : Int} (h1 : -2147483648 ≤ x) (h2 : x ≤ 2147483647) :
    toInt32 x = x := by
  unfold toInt32; omega

theorem toInt32_idem (x : Int) : toInt32 (toInt32 x) = toInt32 x :=
  toInt32_of_range (toInt32_range x).1 (toInt32_range x).2

theorem fmt_d_ofNat (m : Nat) : fmt_d (Int.ofNat m) = Nat.repr m := rfl

theorem fmt_d_negSucc (m : Nat) : fmt_d (Int.negSucc m) = "-" ++ Nat.repr (m + 1) := rfl

theorem fmt_d_length {i : Int} (h1 : -2147483648 ≤ i) (h2 : i ≤ 2147483647) :
    (fmt_d i).length ≤ 11 := by
  cases i with
  | ofNat m =>
    rw [fmt_d_ofNat]
    have := Nat.repr_length m 10 (by decide) (by simp at h2; omega)
    omega
  | negSucc m =>
    rw [fmt_d_negSucc, String.length_append]
    have := Nat.repr_length (m + 1) 10 (by decide) (by
      have : Int.negSucc m = -((m : Int) + 1) := rfl
      omega)
    have h : ("-" : String).length = 1 := rfl
    omega

theorem snprintf_fits {size : Nat} {s : String} (h : s.length < size) : snprintf size s = s := by
  unfold snprintf
  rw [List.take_of_length_le (by rw [String.length] at h; omega)]

theorem defaultName_fits (i : Int) :
    snprintf 32 ("Thread" ++ fmt_d (toInt32 i)) = "Thread" ++ fmt_d (toInt32 i) := by
  apply snprintf_fits
  rw [String.length_append]
  have := fmt_d_length (toInt32_range i).1 (toInt32_range i).2
  have h : ("Thread" : String).length = 6 := rfl
  omega

theorem digitChar_value {d : Nat} (h : d < 10) : (Nat.digitChar d).toNat - 48 = d := by
  interval_cases d <;> rfl

theorem decimalValue_snoc (cs : List Char) (c : Char) :
    decimalValue (cs ++ [c]) = 10 * decimalValue cs + (c.toNat - 48) := by
  simp [decimalValue, List.foldl_append]

theorem toDigitsCore_value (fuel : Nat) : ∀ (n : Nat) (ds : List Char), n < fuel →
    ∃ pre, Nat.toDigitsCore 10 fuel n ds = pre ++ ds ∧ decimalValue pre = n := by
  induction fuel with
  | zero => intro n ds h; omega
  | succ fuel ih =>
    intro n ds h
    unfold Nat.toDigitsCore
    by_cases h0 : n / 10 = 0
    · refine ⟨[Nat.digitChar (n % 10)], by simp [h0], ?_⟩
      have := decimalValue_snoc [] (Nat.digitChar (n % 10))
      simp only [List.nil_append] at this
      rw [this, digitChar_value (Nat.mod_lt n (by decide))]
      simp [decimalValue]
      omega
    · obtain ⟨pre, hpre, hval⟩ := ih (n / 10) (Nat.digitChar (n % 10) :: ds) (by omega)
      refine ⟨pre ++ [Nat.digitChar (n % 10)], by simp [h0, hpre], ?_⟩
      rw [decimalValue_snoc, hval, digitChar_value (Nat.mod_lt n (by decide))]
      omega

theorem decimalValue_repr (n : Nat) : decimalValue (Nat.repr n).data = n := by
  obtain ⟨pre, hpre, hval⟩ := toDigitsCore_value (n + 1) n [] (by omega)
  simp only [Nat.repr, Nat.toDigits, List.asString, hpre, List.append_nil]
  exact hval

theorem fmt_d_injective_nonneg {a b : Int} (ha : 0 ≤ a) (hb : 0 ≤ b)
    (h : fmt_d a = fmt_d b) : a = b := by
  obtain ⟨m, rfl⟩ := Int.eq_ofNat_of_zero_le ha
  obtain ⟨k, rfl⟩ := Int.eq_ofNat_of_zero_le hb
  have h' : Nat.repr m = Nat.repr k := h
  have := congrArg (fun s => decimalValue s.data) h'
  simp only [decimalValue_repr] at this
  rw [this]

theorem string_append_left_cancel {p a b : String} (h : p ++ a = p ++ b) : a = b := by
  have := congrArg String.data h
  simp only [String.data_append] at this
  exact String.ext (List.append_cancel_left this)

theorem construct_counter (func : ThreadFunc) (n : String) (c : Int) :
    (Thread.construct func n c).2.1 = toInt32 (c + 1) := by
  unfold Thread.construct Thread.setDefaultName AtomicInt32.incrementAndGet
  simp only
  split <;> rfl

theorem construct_name_empty (func : ThreadFunc) (c : Int) :
    (Thread.construct func "" c).1.name_ = "Thread" ++ fmt_d (toInt32 (c + 1)) := by
  unfold Thread.construct Thread.setDefaultName AtomicInt32.incrementAndGet
  simp only [String.isEmpty_iff, if_true, toInt32_idem, defaultName_fits]

theorem c_str_of_no_NUL {s : String} (h : Char.ofNat 0 ∉ s.data) : c_str s = s := by
  unfold c_str
  have : s.data.takeWhile (fun c => c != Char.ofNat 0) = s.data := by
    rw [List.takeWhile_eq_self_iff]
    intro x hx
    simp only [bne_iff_ne, ne_eq]
    intro hx0
    exact h (hx0 ▸ hx)
  rw [this]

theorem constructAll_getElem? (reqs : List (ThreadFunc × String)) :
    ∀ (c : Int) (k : Nat), -2147483648 ≤ c → c ≤ 2147483647 →
      (constructAll reqs c)[k]? =
        (reqs[k]?).map (fun r =>
          ((Thread.construct r.1 r.2 (toInt32 (c + k))).1,
            (Thread.construct r.1 r.2 (toInt32 (c + k))).2.1)) := by
  induction reqs with
  | nil => intro c k _ _; simp [constructAll]
  | cons r rest ih =>
    intro c k h1 h2
    obtain ⟨func, n⟩ := r
    cases k with
    | zero => simp [constructAll, toInt32_of_range h1 h2]
    | succ k =>
      simp only [constructAll, List.getElem?_cons_succ]
      rw [ih _ k (by rw [construct_counter]; exact (toInt32_range _).1)
        (by rw [construct_counter]; exact (toInt32_range _).2), construct_counter]
      have : toInt32 (toInt32 (c + 1) + (k : Int)) = toInt32 (c + ((k + 1 : Nat) : Int)) := by
        unfold toInt32; push_cast; omega
      rw [this]

theorem inv_latch {s : Sys} (h : s.Inv) :
    s.thread.latch_.count_ = 1 ∨ s.thread.latch_.count_ = 0 := by
  obtain ⟨t, cr, ch, hl, tr⟩ := s
  obtain ⟨hst, -⟩ := h
  cases ch with
  | none => exact Or.inl hst.2.2.2.1
  | some c =>
    obtain ⟨pc, d, tl⟩ := c
    cases pc <;> simp only [Sys.StateInv] at hst
    · exact Or.inl hst.2.2.2.1
    · exact Or.inl hst.2.2.2.1
    · exact Or.inr hst.2.2.1
    · exact Or.inr hst.2.2.1

theorem run_tid_stable {s s' : Sys} (sched : List Action) (h : s.Inv)
    (hr : s.run sched = some s') (hne : s.thread.tid_ ≠ 0) : s'.thread.tid_ = s.thread.tid_ := by
  rcases run_tid sched h hr with h1 | ⟨h0, -⟩
  · exact h1
  · exact absurd h0 hne

theorem count_le_of_filter {tr : List Event} {k : Int} {ph : Phase}
    (h : tr.filter Event.isRendezvous = rendezvousEvents k ph) :
    tr.count Event.countDown ≤ 1 := by
  have h1 : tr.count Event.countDown = (tr.filter Event.isRendezvous).count Event.countDown := by
    rw [List.count_filter]; rfl
  rw [h1, h]
  cases ph <;> simp [rendezvousEvents, List.count_cons]

/-! ## The claims -/

/-- C1. Start-up rendezvous. Take a handle that is not yet started, in any
state the system can reach from its construction, and let `pthread_create`
succeed (`rc = 0`).

* If the kernel id the child gets is positive, `start` does return: the run
  in which the child stores its id and decrements the latch lets the creator
  leave `wait`, and the handle then holds that id.
* Under every schedule, once `start` has returned: `started_` is true, the
  kernel id of the handle is positive, it is the id that the `gettid` system
  call gave the child, it is what `CurrentThread::tid()` returns in the child,
  the latch is at zero, and the store, the decrement and the return occurred
  once each and in this order. -/
theorem start_rendezvous (func : ThreadFunc) (n : String) (c : Int) (pre : List Action)
    (s0 : Sys) (nativeId : Nat)
    (hpre : (Sys.init (Thread.construct func n c).1).run pre = some s0)
    (hns : s0.thread.started_ = false) (hlive : s0.halted = false) :
    (∀ sys, 0 < detail.gettid sys →
      ∃ s, s0.run [Action.startCall 0 nativeId, Action.childPublish sys,
          Action.childCountDown, Action.startReturn] = some s ∧
        Event.startReturn ∈ s.trace ∧ s.thread.tid_ = detail.gettid sys) ∧
    (∀ sched s, s0.run (Action.startCall 0 nativeId :: sched) = some s →
      Event.startReturn ∈ s.trace →
        s.thread.started_ = true ∧ 0 < s.thread.tid_ ∧
        (∃ sys, Action.childPublish sys ∈ sched ∧ s.thread.tid_ = detail.gettid sys) ∧
        (∃ ch, s.child = some ch ∧ ∀ sys, (ch.tl.tid sys).2 = s.thread.tid_) ∧
        s.thread.latch_.count_ = 0 ∧
        s.trace.filter Event.isRendezvous =
          [Event.writeTid s.thread.tid_, Event.countDown, Event.startReturn]) := by
  have hinv0 := inv_reachable hpre
  have hinv0' := hinv0
  obtain ⟨th, cr, ch, hl, tr⟩ := s0
  simp only at hns hlive
  subst hlive
  obtain ⟨hst0, htr0⟩ := hinv0
  cases ch with
  | some c0 => simp [Sys.StateInv, hns] at hst0
  | none =>
    simp only [Sys.StateInv] at hst0
    obtain ⟨-, hj, htid, hcount, hcr⟩ := hst0
    subst hcr
    constructor
    · intro sys hpos
      simp [Sys.run, Sys.step, Thread.start_create, ThreadData.runInThread_publish,
        ThreadData.runInThread_countDown, Thread.start_wait, CountDownLatch.waitReturns,
        CountDownLatch.countDown, CurrentThread.tid, CurrentThread.cacheTid,
        CurrentThread.fresh, hns, hcount, hpos]
    · intro sched s hrun hret
      have hinv : s.Inv := inv_run _ hinv0' hrun
      have hfil := traceAt_filter hinv.2
      have hmem : Event.startReturn ∈ s.trace.filter Event.isRendezvous :=
        List.mem_filter.mpr ⟨hret, rfl⟩
      rw [hfil] at hmem
      have htidrun := run_tid _ hinv0' hrun
      obtain ⟨t, cr, ch, hl, tr'⟩ := s
      obtain ⟨hst, -⟩ := hinv
      cases ch with
      | none => simp [Sys.phase, rendezvousEvents] at hmem
      | some c1 =>
        obtain ⟨pc, d, tl⟩ := c1
        cases pc <;> cases cr <;>
          simp [Sys.phase, rendezvousEvents] at hmem hfil <;>
          simp only [Sys.StateInv] at hst
        all_goals
          obtain ⟨hs1, hs2, hs3, hs4⟩ := hst
          simp only at htidrun htid
          refine ⟨hs1, hs4, ?_, ⟨_, rfl, ?_⟩, hs3, hfil⟩
          · rcases htidrun with h1 | ⟨-, sys, hm, h2⟩
            · rw [htid] at h1; omega
            · rcases List.mem_cons.mp hm with h3 | h3
              · cases h3
              · exact ⟨sys, h3, h2⟩
          · intro sys
            have hne : tl.t_cachedTid ≠ 0 := by rw [← hs2]; omega
            simp [CurrentThread.tid, hne, hs2]

/-- The rendezvous on `exampleHandle`, right after its construction, the
native thread getting the handle 7 and the child the kernel id 4242. -/
theorem start_rendezvous_witness :
    (Sys.init (Thread.construct ThreadFunc.returns "" 0).1).run [] =
      some (Sys.init exampleHandle) ∧
    (Sys.init exampleHandle).thread.started_ = false ∧
    (Sys.init exampleHandle).halted = false ∧
    ∃ s, (Sys.init exampleHandle).run [Action.startCall 0 7, Action.childPublish 4242,
        Action.childCountDown, Action.startReturn] = some s ∧
      Event.startReturn ∈ s.trace ∧ s.thread.tid_ = detail.gettid 4242 :=
  ⟨rfl, rfl, rfl,
    (start_rendezvous ThreadFunc.returns "" 0 [] (Sys.init exampleHandle) 7 rfl rfl rfl).1
      4242 (by decide)⟩

/-- C2. Failure policy of the trampoline. On a payload as `start` builds it,
`runInThread` stores the kernel id, decrements the latch, names the thread,
and then, by how the closure ends:
it returns: tag "finished", nothing written, the trampoline returns;
`muduo::Exception`: tag "crashed", thread name, message and stack trace
written, `abort()`;
`std::exception`: tag "crashed", thread name and message written, `abort()`;
anything else: tag "crashed", a notice written, the exception is rethrown and
`abort()` is not called.
The trampoline returns exactly when the closure returned. The name, the
message and the trace go out as C strings: whole when they hold no NUL, and up
to the first NUL otherwise. -/
theorem trampoline_failure_policy (func : ThreadFunc) (name : String) (tl : CurrentThread)
    (sys : Int) (t : Thread) :
    ∃ d tl1 how ev,
      ThreadData.runInThread
          { func_ := func, name_ := name, tid_ := Ptr.handle, latch_ := Ptr.handle }
          tl sys t
        = some (d, tl1, { t with tid_ := (tl.tid sys).2, latch_ := t.latch_.countDown },
            how, [Event.writeTid (tl.tid sys).2, Event.countDown,
              Event.prctl (if name.isEmpty then "muduoThread" else c_str name)] ++ ev) ∧
      (how = Exit.returned ↔ func = ThreadFunc.returns) ∧
      (∀ text : String, Char.ofNat 0 ∈ text.data ∨ c_str text = text) ∧
      match func with
      | ThreadFunc.returns =>
        tl1.t_threadName = "finished" ∧ how = Exit.returned ∧ ev = []
      | ThreadFunc.throwsException what stackTrace =>
        tl1.t_threadName = "crashed" ∧ how = Exit.aborted ∧
        ev = [Event.stderr ("exception caught in Thread " ++ c_str name ++ "\n"),
              Event.stderr ("reason: " ++ c_str what ++ "\n"),
              Event.stderr ("stack trace: " ++ c_str stackTrace ++ "\n"),
              Event.abort]
      | ThreadFunc.throwsStdException what =>
        tl1.t_threadName = "crashed" ∧ how = Exit.aborted ∧
        ev = [Event.stderr ("exception caught in Thread " ++ c_str name ++ "\n"),
              Event.stderr ("reason: " ++ c_str what ++ "\n"),
              Event.abort]
      | ThreadFunc.throwsOther =>
        tl1.t_threadName = "crashed" ∧ how = Exit.rethrown ∧
        ev = [Event.stderr ("unknown exception caught in Thread " ++ c_str name ++ "\n"),
              Event.rethrow] := by
  have hc : ∀ text : String, Char.ofNat 0 ∈ text.data ∨ c_str text = text := by
    intro text
    by_cases h : Char.ofNat 0 ∈ text.data
    · exact Or.inl h
    · exact Or.inr (c_str_of_no_NUL h)
  cases func <;>
    simp only [ThreadData.runInThread, ThreadData.runInThread_publish,
      ThreadData.runInThread_countDown, ThreadData.runInThread_call] <;>
    refine ⟨_, _, _, _, rfl, ?_, hc, rfl, rfl, rfl⟩ <;> simp

/-- C3. Double start is rejected. On a started handle (the creator being
outside its member functions and the process alive), `start` fails at
`assert(!started_)`: no payload is allocated, `pthread_create` is not called,
and the handle, the child and the creator are as before; the process stops. -/
theorem double_start_rejected (s : Sys) (rc : Int) (nativeId : Nat)
    (hstarted : s.thread.started_ = true) (hidle : s.creator = CreatorPc.idle)
    (hlive : s.halted = false) :
    s.thread.start_create rc nativeId =
      (StartCreate.assertFailed, [Event.assertFail "!started_"]) ∧
    s.step (Action.startCall rc nativeId) =
      some { s with halted := true, trace := s.trace ++ [Event.assertFail "!started_"] } := by
  have h1 : s.thread.start_create rc nativeId =
      (StartCreate.assertFailed, [Event.assertFail "!started_"]) := by
    simp [Thread.start_create, hstarted]
  refine ⟨h1, ?_⟩
  simp [Sys.step, hlive, hidle, h1]

/-- A second `start` on `exampleHandle`, started by `exampleSchedule`. -/
theorem double_start_rejected_witness :
    exampleStarted.thread.started_ = true ∧ exampleStarted.creator = CreatorPc.idle ∧
    exampleStarted.halted = false ∧
    exampleStarted.thread.start_create 0 8 =
      (StartCreate.assertFailed, [Event.assertFail "!started_"]) ∧
    exampleStarted.step (Action.startCall 0 8) =
      some { exampleStarted with
        halted := true, trace := exampleStarted.trace ++ [Event.assertFail "!started_"] } :=
  ⟨by decide, by decide, by decide,
    double_start_rejected exampleStarted 0 8 (by decide) (by decide) (by decide)⟩

/-- C4. `join` succeeds exactly on a handle that is started and not joined.
`pthread_join` is called exactly then, on the native handle. On success the
handle differs in `joined_` only, which is true, the value returned is the
one `pthread_join` returned, and a second `join` is rejected. Otherwise an
assertion fails and nothing else happens. -/
theorem join_contract (t : Thread) (rc : Int) :
    ((t.join rc).1.isSome = true ↔ (t.started_ = true ∧ t.joined_ = false)) ∧
    (∀ id v, Event.pthread_join id v ∈ (t.join rc).2 ↔
      (t.started_ = true ∧ t.joined_ = false ∧ id = t.pthreadId_ ∧ v = rc)) ∧
    match t.join rc with
    | (some (t1, v), ev) =>
      t1 = { t with joined_ := true } ∧ v = rc ∧ ev = [Event.pthread_join t.pthreadId_ rc] ∧
      ∀ rc2, t1.join rc2 = (none, [Event.assertFail "!joined_"])
    | (none, ev) =>
      ev = [Event.assertFail (if t.started_ then "!joined_" else "started_")] := by
  cases hs : t.started_ <;> cases hj : t.joined_ <;> simp [Thread.join, hs, hj]

/-- C5. Destruction-time detach. The destructor calls `pthread_detach` on the
native handle once when the handle is started and not joined, and makes no
native call otherwise; it never calls `pthread_join`. So nothing is detached
for a handle right after construction, after a failed `start`, or after a
`join`. -/
theorem destroy_detaches (t : Thread) :
    t.destroy =
      (if t.started_ = true ∧ t.joined_ = false then [Event.pthread_detach t.pthreadId_]
        else []) ∧
    (∀ id rc, Event.pthread_join id rc ∉ t.destroy) ∧
    (∀ func n c, (Thread.construct func n c).1.destroy = []) ∧
    (∀ rc nativeId,
      match t.start_create rc nativeId with
      | (StartCreate.failed t1, _) => t1.destroy = []
      | (StartCreate.created t1 _, _) =>
        t1.destroy = (if t.joined_ = false then [Event.pthread_detach nativeId] else [])
      | (StartCreate.assertFailed, _) => True) ∧
    (∀ rc,
      match t.join rc with
      | (some (t1, _), _) => t1.destroy = []
      | (none, _) => True) := by
  refine ⟨?_, ?_, ?_, ?_, ?_⟩
  · cases hs : t.started_ <;> cases hj : t.joined_ <;> simp [Thread.destroy, hs, hj]
  · intro id rc
    cases hs : t.started_ <;> cases hj : t.joined_ <;> simp [Thread.destroy, hs, hj]
  · intro func n c
    unfold Thread.construct Thread.setDefaultName
    split <;> rfl
  · intro rc nativeId
    by_cases hrc : rc = 0 <;> cases hs : t.started_ <;> cases hj : t.joined_ <;>
      simp [Thread.start_create, Thread.destroy, hs, hj, hrc]
  · intro rc
    cases hs : t.started_ <;> cases hj : t.joined_ <;> simp [Thread.join, Thread.destroy, hs, hj]

/-- C6, amended. Construction postcondition. The counter `numCreated_` being
a 32-bit value, the constructor increments it once, named or not: the new
value is the old one plus one, except that from 2147483647 it wraps to
-2147483648. The constructor calls no native primitive, so it creates no
native thread, and it yields a handle with `started_ = false`,
`joined_ = false`, kernel id 0, and the name `n` when `n` is not empty, else
"Thread" followed by the decimal rendering of the counter after the
increment. -/
theorem construct_postcondition (func : ThreadFunc) (n : String) (numCreated_ : Int)
    (hlo : -2147483648 ≤ numCreated_) (hhi : numCreated_ ≤ 2147483647) :
    (Thread.construct func n numCreated_).2.1 =
      (if numCreated_ = 2147483647 then -2147483648 else numCreated_ + 1) ∧
    (Thread.construct func n numCreated_).2.2 = [] ∧
    (Thread.construct func n numCreated_).1 =
      { started_ := false, joined_ := false, pthreadId_ := 0, tid_ := 0, func_ := func,
        name_ := if n = "" then
            "Thread" ++ toString (Thread.construct func n numCreated_).2.1
          else n,
        latch_ := { count_ := 1 } } := by
  refine ⟨?_, rfl, ?_⟩
  · rw [construct_counter]
    unfold toInt32
    split <;> omega
  · rw [construct_counter]
    unfold Thread.construct Thread.setDefaultName AtomicInt32.incrementAndGet
    by_cases hn : n = ""
    · subst hn
      simp only [String.isEmpty_iff, if_true, toInt32_idem, defaultName_fits]
      rfl
    · have : ¬ (n.isEmpty = true) := by rwa [String.isEmpty_iff]
      simp [this, hn]

/-- The first construction of a process, without a name: the counter goes
from 0 to 1 and the handle is named "Thread1". -/
theorem construct_postcondition_witness :
    (-2147483648 : Int) ≤ 0 ∧ (0 : Int) ≤ 2147483647 ∧
    (Thread.construct ThreadFunc.returns "" 0).2.1 =
      (if (0 : Int) = 2147483647 then -2147483648 else 0 + 1) ∧
    (Thread.construct ThreadFunc.returns "" 0).2.2 = [] :=
  ⟨by decide, by decide,
    (construct_postcondition ThreadFunc.returns "" 0 (by decide) (by decide)).1,
    (construct_postcondition ThreadFunc.returns "" 0 (by decide) (by decide)).2.1⟩

/-- C6, as stated, fails. A process has constructed 2147483647 handles, so
that the counter stands at 2147483647. The next construction leaves the
counter at -2147483648, which is not 2147483647 + 1, and, when no name is
given, names the handle "Thread-2147483648". -/
theorem construct_wraps_at_max :
    ((constructAll (List.replicate 2147483647 (ThreadFunc.returns, "worker")) 0)[2147483646]?).map
      (fun r => r.2) = some 2147483647 ∧
    (Thread.construct ThreadFunc.returns "worker" 2147483647).2.1 = -2147483648 ∧
    (Thread.construct ThreadFunc.returns "worker" 2147483647).2.1 ≠ 2147483647 + 1 ∧
    (Thread.construct ThreadFunc.returns "" 2147483647).2.1 = -2147483648 ∧
    (Thread.construct ThreadFunc.returns "" 2147483647).1.name_ = "Thread-2147483648" := by
  have e1 : (List.replicate 2147483647 (ThreadFunc.returns, "worker"))[2147483646]?
      = some (ThreadFunc.returns, "worker") := by
    rw [List.getElem?_replicate, if_pos (by decide)]
  refine ⟨?_, by decide, by decide, by decide, by decide⟩
  rw [constructAll_getElem? _ 0 2147483646 (by decide) (by decide), e1]
  decide

/-- C7, amended. Default names while the counter has not wrapped. In a
process that constructs at most 2147483647 handles, named or not, starting
with the counter at 0, two handles constructed without a name, the `i`-th and
the `j`-th construction with `i < j` (counted from 0), get different names,
"Thread" followed by the value of the counter at their construction, which is
`i + 1` and `j + 1`, the later one being larger. -/
theorem default_names_increasing (reqs : List (ThreadFunc × String)) (i j : Nat)
    (fi fj : ThreadFunc) (hlen : reqs.length ≤ 2147483647) (hij : i < j)
    (hi : reqs[i]? = some (fi, "")) (hj : reqs[j]? = some (fj, "")) :
    ∃ ti tj : Thread,
      (constructAll reqs 0)[i]? = some (ti, (i : Int) + 1) ∧
      (constructAll reqs 0)[j]? = some (tj, (j : Int) + 1) ∧
      ti.name_ = "Thread" ++ toString ((i : Int) + 1) ∧
      tj.name_ = "Thread" ++ toString ((j : Int) + 1) ∧
      ti.name_ ≠ tj.name_ ∧ (i : Int) + 1 < (j : Int) + 1 := by
  have hjl : j < reqs.length := by
    by_contra hge
    rw [List.getElem?_eq_none (by omega)] at hj
    cases hj
  have ci : toInt32 (toInt32 ((0 : Int) + (i : Int)) + 1) = (i : Int) + 1 := by
    unfold toInt32; omega
  have cj : toInt32 (toInt32 ((0 : Int) + (j : Int)) + 1) = (j : Int) + 1 := by
    unfold toInt32; omega
  have ei := constructAll_getElem? reqs 0 i (by decide) (by decide)
  have ej := constructAll_getElem? reqs 0 j (by decide) (by decide)
  rw [hi] at ei
  rw [hj] at ej
  simp only [Option.map_some'] at ei ej
  have ni := construct_name_empty fi (toInt32 ((0 : Int) + (i : Int)))
  have nj := construct_name_empty fj (toInt32 ((0 : Int) + (j : Int)))
  rw [ci] at ni
  rw [cj] at nj
  refine ⟨(Thread.construct fi "" (toInt32 (0 + (i : Int)))).1,
    (Thread.construct fj "" (toInt32 (0 + (j : Int)))).1, ?_, ?_, ni, nj, ?_, by omega⟩
  · rw [ei, ← ci, ← construct_counter]
  · rw [ej, ← cj, ← construct_counter]
  · rw [ni, nj]
    intro h
    have := fmt_d_injective_nonneg (by omega) (by omega) (string_append_left_cancel h)
    omega

/-- Three constructions, the first and the third without a name: "Thread1"
and "Thread3". -/
theorem default_names_increasing_witness :
    [(ThreadFunc.returns, ""), (ThreadFunc.returns, "worker"),
      (ThreadFunc.throwsOther, "")].length ≤ 2147483647 ∧
    0 < 2 ∧
    [(ThreadFunc.returns, ""), (ThreadFunc.returns, "worker"),
      (ThreadFunc.throwsOther, "")][0]? = some (ThreadFunc.returns, "") ∧
    [(ThreadFunc.returns, ""), (ThreadFunc.returns, "worker"),
      (ThreadFunc.throwsOther, "")][2]? = some (ThreadFunc.throwsOther, "") ∧
    ∃ ti tj : Thread,
      (constructAll [(ThreadFunc.returns, ""), (ThreadFunc.returns, "worker"),
        (ThreadFunc.throwsOther, "")] 0)[0]? = some (ti, ((0 : Nat) : Int) + 1) ∧
      (constructAll [(ThreadFunc.returns, ""), (ThreadFunc.returns, "worker"),
        (ThreadFunc.throwsOther, "")] 0)[2]? = some (tj, ((2 : Nat) : Int) + 1) ∧
      ti.name_ = "Thread" ++ toString (((0 : Nat) : Int) + 1) ∧
      tj.name_ = "Thread" ++ toString (((2 : Nat) : Int) + 1) ∧
      ti.name_ ≠ tj.name_ ∧ ((0 : Nat) : Int) + 1 < ((2 : Nat) : Int) + 1 :=
  ⟨by decide, by decide, rfl, rfl,
    default_names_increasing
      [(ThreadFunc.returns, ""), (ThreadFunc.returns, "worker"), (ThreadFunc.throwsOther, "")]
      0 2 ThreadFunc.returns ThreadFunc.throwsOther (by decide) (by decide) rfl rfl⟩

/-- C7, as stated, fails. A process constructs 2147483648 handles without a
name. Construction number 2147483646 (counted from 0) yields the counter
value 2147483647 and the name "Thread2147483647"; the next one yields the
counter value -2147483648 and the name "Thread-2147483648": the later handle
has the smaller number. -/
theorem default_names_wrap :
    (List.replicate 2147483648 (ThreadFunc.returns, ""))[2147483646]?
      = some (ThreadFunc.returns, "") ∧
    (List.replicate 2147483648 (ThreadFunc.returns, ""))[2147483647]?
      = some (ThreadFunc.returns, "") ∧
    ((constructAll (List.replicate 2147483648 (ThreadFunc.returns, "")) 0)[2147483646]?).map
      (fun r => (r.1.name_, r.2)) = some ("Thread2147483647", 2147483647) ∧
    ((constructAll (List.replicate 2147483648 (ThreadFunc.returns, "")) 0)[2147483647]?).map
      (fun r => (r.1.name_, r.2)) = some ("Thread-2147483648", -2147483648) ∧
    ¬ ((2147483647 : Int) < -2147483648) := by
  have e1 : (List.replicate 2147483648 (ThreadFunc.returns, ""))[2147483646]?
      = some (ThreadFunc.returns, "") := by
    rw [List.getElem?_replicate, if_pos (by decide)]
  have e2 : (List.replicate 2147483648 (ThreadFunc.returns, ""))[2147483647]?
      = some (ThreadFunc.returns, "") := by
    rw [List.getElem?_replicate, if_pos (by decide)]
  refine ⟨e1, e2, ?_, ?_, by decide⟩
  · rw [constructAll_getElem? _ 0 2147483646 (by decide) (by decide), e1]
    decide
  · rw [constructAll_getElem? _ 0 2147483647 (by decide) (by decide), e2]
    decide

/-- C8. Creation failure in `start`. Take a handle that is not yet started, in
any state the system can reach from its construction, and let
`pthread_create` fail (`rc ≠ 0`). Then `start` allocates the payload, calls
`pthread_create`, releases the payload and reports the fatal system error,
and does nothing else. Afterwards `started_` is false, `joined_` is false, the
kernel id is 0, the latch still stands at 1 and has never been decremented,
there is no child, and the creator is not waiting on the latch. -/
theorem start_creation_failure (func : ThreadFunc) (n : String) (c : Int)
    (pre : List Action) (s0 : Sys) (rc : Int) (nativeId : Nat)
    (hpre : (Sys.init (Thread.construct func n c).1).run pre = some s0)
    (hns : s0.thread.started_ = false) (hlive : s0.halted = false) (hrc : rc ≠ 0) :
    s0.thread.start_create rc nativeId =
      (StartCreate.failed { s0.thread with pthreadId_ := nativeId },
        [Event.newThreadData, Event.pthread_create rc, Event.deleteThreadData,
         Event.logSysFatal "Failed in pthread_create"]) ∧
    ∃ s, s0.step (Action.startCall rc nativeId) = some s ∧
      s.thread.started_ = false ∧ s.thread.joined_ = false ∧ s.thread.tid_ = 0 ∧
      s.thread.latch_.count_ = 1 ∧ s.creator = CreatorPc.idle ∧ s.child = none ∧
      s.trace = s0.trace ++
        [Event.newThreadData, Event.pthread_create rc, Event.deleteThreadData,
         Event.logSysFatal "Failed in pthread_create"] ∧
      Event.countDown ∉ s.trace ∧
      s.step Action.startReturn = none ∧ s.step Action.childCountDown = none := by
  have hinv := inv_reachable hpre
  have hfil := traceAt_filter hinv.2
  obtain ⟨th, cr, ch, hl, tr⟩ := s0
  simp only at hns hlive
  subst hlive
  cases ch with
  | some c0 => have := hinv.1.1; simp only at this; rw [hns] at this; cases this
  | none =>
    obtain ⟨-, hj, htid, hcount, hcr⟩ := hinv.1
    simp only at hj htid hcount hcr
    subst hcr
    have hcreate : th.start_create rc nativeId =
        (StartCreate.failed { th with pthreadId_ := nativeId },
          [Event.newThreadData, Event.pthread_create rc, Event.deleteThreadData,
           Event.logSysFatal "Failed in pthread_create"]) := by
      simp only [Thread.start_create, hns, Bool.false_eq_true, if_false, ne_eq, hrc,
        not_false_eq_true, if_true, Prod.mk.injEq, StartCreate.failed.injEq, and_true]
    refine ⟨hcreate, ?_⟩
    simp only [Sys.phase, rendezvousEvents] at hfil
    have hq : Event.countDown ∉ tr := by
      intro hmem
      have : Event.countDown ∈ tr.filter Event.isRendezvous :=
        List.mem_filter.mpr ⟨hmem, rfl⟩
      rw [hfil] at this
      cases this
    simp [Sys.step, hcreate, hns, hj, htid, hcount, hq]

/-- A first `start` on `exampleHandle` in which `pthread_create` returns 11. -/
theorem start_creation_failure_witness :
    (Sys.init (Thread.construct ThreadFunc.returns "" 0).1).run [] =
      some (Sys.init exampleHandle) ∧
    (Sys.init exampleHandle).thread.started_ = false ∧
    (Sys.init exampleHandle).halted = false ∧ (11 : Int) ≠ 0 ∧
    (Sys.init exampleHandle).thread.start_create 11 0 =
      (StartCreate.failed { (Sys.init exampleHandle).thread with pthreadId_ := 0 },
        [Event.newThreadData, Event.pthread_create 11, Event.deleteThreadData,
         Event.logSysFatal "Failed in pthread_create"]) :=
  ⟨rfl, rfl, rfl, by decide,
    (start_creation_failure ThreadFunc.returns "" 0 [] (Sys.init exampleHandle) 11 0
      rfl rfl rfl (by decide)).1⟩

/-- C9, amended. Fork safety. After `afterFork` has run in the forked child,
whatever identity the forking thread had cached: the cached name is "main" and
the cached kernel id is the kernel id freshly queried in the child. So the
cached id differs from the parent's exactly when the child's kernel id differs
from it, and the cached name differs from the parent's exactly when the
parent's was not "main". The child's kernel id being its process id and not
0, `CurrentThread::tid` returns it without a further query and
`CurrentThread::isMainThread` holds. -/
theorem afterFork_resets (parent : CurrentThread) (sys pid : Int)
    (hpid : detail.gettid sys = pid) (hnz : pid ≠ 0) :
    (detail.afterFork parent sys).t_threadName = "main" ∧
    (detail.afterFork parent sys).t_cachedTid = detail.gettid sys ∧
    ((detail.afterFork parent sys).t_cachedTid ≠ parent.t_cachedTid ↔
      detail.gettid sys ≠ parent.t_cachedTid) ∧
    ((detail.afterFork parent sys).t_threadName ≠ parent.t_threadName ↔
      parent.t_threadName ≠ "main") ∧
    (∀ sys2, (detail.afterFork parent sys).tid sys2 =
      (detail.afterFork parent sys, pid)) ∧
    (∀ sys2, ((detail.afterFork parent sys).isMainThread sys2 pid).2 = true) := by
  have hname : (detail.afterFork parent sys).t_threadName = "main" := by
    simp [detail.afterFork, CurrentThread.tid, CurrentThread.cacheTid]
  have hid : (detail.afterFork parent sys).t_cachedTid = detail.gettid sys := by
    simp [detail.afterFork, CurrentThread.tid, CurrentThread.cacheTid]
  have htid : ∀ sys2, (detail.afterFork parent sys).tid sys2 =
      (detail.afterFork parent sys, pid) := by
    intro sys2
    simp only [CurrentThread.tid, hid, hpid, hnz, if_false]
  refine ⟨hname, hid, by rw [hid], ?_, htid, ?_⟩
  · rw [hname]
    exact ⟨fun h e => h e.symm, fun h e => h e.symm⟩
  · intro sys2
    simp [CurrentThread.isMainThread, htid]

/-- A worker thread with cached id 4242 and name "Thread1" forks; the child
has kernel id and process id 4300. -/
theorem afterFork_resets_witness :
    detail.gettid 4300 = 4300 ∧ (4300 : Int) ≠ 0 ∧
    (detail.afterFork
      { CurrentThread.fresh with t_cachedTid := 4242, t_threadName := "Thread1" }
      4300).t_threadName = "main" ∧
    (detail.afterFork
      { CurrentThread.fresh with t_cachedTid := 4242, t_threadName := "Thread1" }
      4300).t_cachedTid = detail.gettid 4300 :=
  ⟨by decide, by decide,
    (afterFork_resets
      { CurrentThread.fresh with t_cachedTid := 4242, t_threadName := "Thread1" }
      4300 4300 (by decide) (by decide)).1,
    (afterFork_resets
      { CurrentThread.fresh with t_cachedTid := 4242, t_threadName := "Thread1" }
      4300 4300 (by decide) (by decide)).2.1⟩

/-- C9, as stated, fails. The main thread of a process with process id 100
(its identity cached by `ThreadNameInitializer`: id 100, name "main") forks;
the child has kernel id 101. After `afterFork` the child's cached id is 101,
but its cached name is "main", the same as the parent's. -/
theorem afterFork_keeps_main_name :
    (detail.ThreadNameInitializer CurrentThread.fresh 100).t_cachedTid = 100 ∧
    (detail.ThreadNameInitializer CurrentThread.fresh 100).t_threadName = "main" ∧
    (detail.afterFork (detail.ThreadNameInitializer CurrentThread.fresh 100) 101).t_cachedTid
      = 101 ∧
    (detail.afterFork (detail.ThreadNameInitializer CurrentThread.fresh 100) 101).t_threadName
      = (detail.ThreadNameInitializer CurrentThread.fresh 100).t_threadName := by
  decide

/-- C10. Handle state invariant. In every state reached from the construction
of a handle by a run of `start` (succeeding or failing), `join` and child
steps in which the kernel ids handed out are positive:
(i) the kernel id is 0 or positive; (ii) it is 0 when the handle is not
started; (iii) once it is not 0 no further run changes it; it is stored once,
by the child, before the latch is decremented (the events of the rendezvous
in the trace are those of the phase, in order), and a non-zero id is the one
the `gettid` system call gave the child; (iv) joined implies started; (v) the
latch has been decremented at most once, its count being 1 or 0. -/
theorem handle_state_invariant (func : ThreadFunc) (n : String) (c : Int)
    (sched : List Action) (s : Sys)
    (hrun : (Sys.init (Thread.construct func n c).1).run sched = some s)
    (hos : ∀ a ∈ sched, a.osOk) :
    (s.thread.tid_ = 0 ∨ 0 < s.thread.tid_) ∧
    (s.thread.started_ = false → s.thread.tid_ = 0) ∧
    (∀ more s', s.run more = some s' → s.thread.tid_ ≠ 0 →
      s'.thread.tid_ = s.thread.tid_) ∧
    (s.thread.joined_ = true → s.thread.started_ = true) ∧
    s.trace.count Event.countDown ≤ 1 ∧
    (s.thread.latch_.count_ = 1 ∨ s.thread.latch_.count_ = 0) ∧
    s.trace.filter Event.isRendezvous = rendezvousEvents s.thread.tid_ s.phase ∧
    (s.thread.tid_ ≠ 0 → ∃ sys, Action.childPublish sys ∈ sched ∧
      s.thread.tid_ = detail.gettid sys) := by
  have hinv := inv_reachable hrun
  have hfil := traceAt_filter hinv.2
  have htid := run_tid sched (inv_init func n c) hrun
  have h0 : (Sys.init (Thread.construct func n c).1).thread.tid_ = 0 :=
    (inv_init func n c).1.2.2.1
  rw [h0] at htid
  refine ⟨?_, ?_, ?_, ?_, count_le_of_filter hfil, inv_latch hinv, hfil, ?_⟩
  · rcases htid with h1 | ⟨-, sys, hm, h2⟩
    · exact Or.inl h1
    · exact Or.inr (h2 ▸ hos _ hm)
  · intro hns
    obtain ⟨t, cr, ch, hl, tr⟩ := s
    cases ch with
    | none => exact hinv.1.2.2.1
    | some c1 => have := hinv.1.1; simp only at hns this; rw [hns] at this; cases this
  · intro more s' hr hne
    exact run_tid_stable more hinv hr hne
  · intro hj
    obtain ⟨t, cr, ch, hl, tr⟩ := s
    cases ch with
    | none => have := hinv.1.2.1; simp only at hj this; rw [hj] at this; cases this
    | some c1 => exact hinv.1.1
  · intro hne
    rcases htid with h1 | ⟨-, sys, hm, h2⟩
    · exact absurd h1 hne
    · exact ⟨sys, hm, h2⟩

/-- The invariant in the state of `exampleHandle` after `exampleSchedule`. -/
theorem handle_state_invariant_witness :
    (Sys.init (Thread.construct ThreadFunc.returns "" 0).1).run exampleSchedule =
      some exampleStarted ∧
    (∀ a ∈ exampleSchedule, a.osOk) ∧
    (exampleStarted.thread.tid_ = 0 ∨ 0 < exampleStarted.thread.tid_) ∧
    exampleStarted.trace.count Event.countDown ≤ 1 :=
  ⟨by decide, by decide,
    (handle_state_invariant ThreadFunc.returns "" 0 exampleSchedule exampleStarted
      (by decide) (by decide)).1,
    (handle_state_invariant ThreadFunc.returns "" 0 exampleSchedule exampleStarted
      (by decide) (by decide)).2.2.2.2.1⟩

end muduo
